import Mathlib

/-!
Verification development for a dividend-stock scanner and risk-management
repository.  The definitions below are a shallow embedding of
`src/src/scanner/engine.py` (scan filters, dividend health score, scanning
engine) and `src/risk_management.py` (portfolio risk assessment, Monte-Carlo
Value-at-Risk, strategy backtester).  Numeric values are modelled as exact
rationals; Python `None` becomes `Option`; Python dictionaries become
structures with `Option` fields; code that can raise an exception is modelled
with `Option` results.  Dates are modelled as integers (days).
-/

/-- Python truthiness of an optional numeric value: `None` and `0` are falsy,
every other number is truthy. -/
def pyTruthy (x : Option ℚ) : Bool :=
  match x with
  | none => false
  | some v => v != 0

/-- Python `a or b` on optional numerics: `b` when `a` is falsy. -/
def pyOr (a b : Option ℚ) : Option ℚ :=
  if pyTruthy a then a else b

/-- Python `int()` applied to a rational: truncation toward zero. -/
def pyTrunc (q : ℚ) : ℤ :=
  if 0 ≤ q then ⌊q⌋ else -⌊-q⌋

/-- The `stock_data` dictionary used by the scanner (engine.py).  Fields that
the code reads with `.get` are optional.  The source also accepts
percent-strings for yield/payout and converts them to numbers; the embedding
works with the converted numeric values directly. -/
structure StockData where
  name : Option String := none
  sector : Option String := none
  current_price : Option ℚ := none
  market_cap : Option ℚ := none
  dividend_yield : Option ℚ := none
  payout_ratio : Option ℚ := none
deriving Repr, DecidableEq

/-- The `financial_metrics` dictionary used by the scanner (engine.py). -/
structure FinancialMetrics where
  pe_ratio : Option ℚ := none
  debt_to_equity : Option ℚ := none
  return_on_equity : Option ℚ := none
  dividend_coverage_ratio : Option ℚ := none
  payout_ratio : Option ℚ := none
deriving Repr, DecidableEq

/-- One row of the `dividend_data` DataFrame (engine.py): ex-dividend date
(as a day number), dividend amount, and the possibly-null (NaN) growth rate. -/
structure DividendRow where
  ex_dividend_date : ℤ
  dividend_amount : ℚ
  dividend_growth_rate : Option ℚ
deriving Repr, DecidableEq

/-- Component 1 of `DividendHealthCalculator.calculate_health_score`
(engine.py lines 58-71): dividend-yield points.
`stock_data.get('dividend_yield', 0) or 0` reads as `getD 0` on numerics. -/
def yieldScore (sd : StockData) : ℚ :=
  let dy := sd.dividend_yield.getD 0
  if 2/100 ≤ dy ∧ dy ≤ 6/100 then 20
  else if 1/100 ≤ dy ∧ dy < 2/100 then 15
  else if 6/100 < dy ∧ dy ≤ 8/100 then 15
  else if 8/100 < dy then 5
  else 0

/-- Component 2 of `calculate_health_score` (engine.py lines 73-87):
payout-ratio points.  The source selects
`stock_data.get('payout_ratio') or financial_metrics.get('payout_ratio')`
and only scores when the result is truthy. -/
def payoutScore (sd : StockData) (fm : FinancialMetrics) : ℚ :=
  let pr := pyOr sd.payout_ratio fm.payout_ratio
  if pyTruthy pr then
    let p := pr.getD 0
    if 3/10 ≤ p ∧ p ≤ 6/10 then 25
    else if 2/10 ≤ p ∧ p < 3/10 then 20
    else if 6/10 < p ∧ p ≤ 8/10 then 15
    else if 8/10 < p then 5
    else 0
  else 0

/-- Component 3 of `calculate_health_score` (engine.py lines 89-96):
dividend-growth consistency points.  `dropna()` removes the null growth
rates; with at least three remaining rates, the fraction of strictly
positive ones is scaled to 20 points. -/
def growthScore (dd : List DividendRow) : ℚ :=
  if dd.isEmpty then 0
  else
    let growth_rates := (dd.map (·.dividend_growth_rate)).filterMap id
    if 3 ≤ growth_rates.length then
      let positive_growth_years := (growth_rates.filter (fun r => decide (0 < r))).length
      (positive_growth_years : ℚ) / (growth_rates.length : ℚ) * 20
    else 0

/-- Component 4 of `calculate_health_score` (engine.py lines 98-111):
financial-health points.  Each guard is a Python truthiness test followed by
a numeric comparison (`if pe_ratio and 10 <= pe_ratio <= 25`, etc.), so a
missing value and a value of `0` both skip the sub-bonus. -/
def financialHealthScore (fm : FinancialMetrics) : ℚ :=
  (match fm.pe_ratio with
   | some pe => if pe ≠ 0 ∧ 10 ≤ pe ∧ pe ≤ 25 then 7 else 0
   | none => 0) +
  (match fm.debt_to_equity with
   | some dte => if dte ≠ 0 ∧ dte ≤ 1/2 then 7 else 0
   | none => 0) +
  (match fm.return_on_equity with
   | some roe => if roe ≠ 0 ∧ 15/100 ≤ roe then 6 else 0
   | none => 0)

/-- Component 5 of `calculate_health_score` (engine.py lines 113-123):
coverage-ratio points, again guarded by Python truthiness. -/
def coverageScore (fm : FinancialMetrics) : ℚ :=
  match fm.dividend_coverage_ratio with
  | none => 0
  | some c =>
    if c = 0 then 0
    else if 2 ≤ c then 15
    else if 3/2 ≤ c then 12
    else if 6/5 ≤ c then 8
    else 3

/-- `DividendHealthCalculator.calculate_health_score` (engine.py lines 50-125):
the five components summed and capped by `min(score, max_score)` with
`max_score = 100`. -/
def calculate_health_score (sd : StockData) (fm : FinancialMetrics) (dd : List DividendRow) : ℚ :=
  min (yieldScore sd + payoutScore sd fm + growthScore dd + financialHealthScore fm + coverageScore fm) 100

/-- The loop of `DividendScanner._count_growth_years` (engine.py lines
318-322): walk the list and count while the rate is strictly positive,
stopping (`break`) at the first non-positive entry. -/
def countConsecutive : List ℚ → ℕ
  | [] => 0
  | r :: rest => if 0 < r then countConsecutive rest + 1 else 0

/-- `DividendScanner._count_growth_years` (engine.py lines 310-324): on a
non-empty history, `dropna()` first removes the null growth rates, then the
loop walks the remaining rates in reverse (most recent first). -/
def countGrowthYears (dd : List DividendRow) : ℕ :=
  if dd.isEmpty then 0
  else countConsecutive ((dd.map (·.dividend_growth_rate)).filterMap id).reverse

/-- `DividendScanner._get_last_dividend_amount` (engine.py lines 293-300):
sort by ex-dividend date descending and take the first row's amount. -/
def lastDividendAmount (dd : List DividendRow) : Option ℚ :=
  if dd.isEmpty then none
  else
    let sorted := List.insertionSort
      (fun a b : DividendRow => b.ex_dividend_date ≤ a.ex_dividend_date) dd
    sorted.head?.map (·.dividend_amount)

/-- `DividendScanner._get_avg_dividend_growth` (engine.py lines 302-308). -/
def avgDividendGrowth (dd : List DividendRow) : Option ℚ :=
  if dd.isEmpty then none
  else
    let growth_rates := (dd.map (·.dividend_growth_rate)).filterMap id
    if 0 < growth_rates.length then some (growth_rates.sum / (growth_rates.length : ℚ))
    else none

/-- `DividendScanner._estimate_next_ex_dividend` (engine.py lines 326-349):
with at least two rows, project the latest date forward by the latest
interval; return it only if it lies strictly in the future. -/
def estimateNextExDividend (now : ℤ) (dd : List DividendRow) : Option ℤ :=
  if dd.isEmpty then none
  else
    let sorted := List.insertionSort
      (fun a b : DividendRow => b.ex_dividend_date ≤ a.ex_dividend_date) dd
    match sorted with
    | a :: b :: _ =>
      let interval := a.ex_dividend_date - b.ex_dividend_date
      let estimated_next := a.ex_dividend_date + interval
      if now < estimated_next then some estimated_next else none
    | _ => none

/-- A value that can flow through a `ScanFilter`: the numeric criteria produce
numbers, `SECTORS` produces the sector string, and sector filter values are
lists of sector names. -/
inductive FilterVal where
  | num (q : ℚ)
  | str (s : String)
  | strs (l : List String)
deriving Repr, DecidableEq

/-- The `ScanFilter` dataclass (engine.py lines 28-33).  The criterion is
modelled by its tag string (the `ScanCriteria` enum values); Python does not
enforce the annotation, so arbitrary tags can reach the engine. -/
structure ScanFilter where
  criteria : String
  value : FilterVal
  operator : String := "gte"
deriving Repr, DecidableEq

/-- The `ScanConfiguration` dataclass (engine.py lines 36-43). -/
structure ScanConfiguration where
  name : String
  filters : List ScanFilter
  sort_by : String := "dividend_yield"
  sort_order : String := "desc"
  limit : Option ℕ := none

/-- The operator tags understood by `DividendScanner._apply_filter`. -/
def validOperators : List String := ["gte", "lte", "eq", "in", "not_in"]

/-- The criterion tags of the `ScanCriteria` enum (engine.py lines 11-25),
exactly the tags `DividendScanner._get_filter_value` dispatches on. -/
def validCriteria : List String :=
  ["min_dividend_yield", "max_dividend_yield", "min_market_cap", "max_market_cap",
   "min_years_dividend_growth", "max_payout_ratio", "min_dividend_coverage", "sectors",
   "min_pe_ratio", "max_pe_ratio", "min_roe", "max_debt_to_equity", "ex_dividend_within_days"]

/-- `DividendScanner._get_filter_value` (engine.py lines 228-272), dispatching
on the criterion tag; an unrecognised tag falls through to `return None`.
Percent-string inputs are modelled by their numeric value. -/
def getFilterValue (now : ℤ) (criteria : String) (sd : StockData)
    (fm : FinancialMetrics) (dd : List DividendRow) : Option FilterVal :=
  if criteria = "min_dividend_yield" ∨ criteria = "max_dividend_yield" then
    sd.dividend_yield.map .num
  else if criteria = "min_market_cap" ∨ criteria = "max_market_cap" then
    sd.market_cap.map .num
  else if criteria = "max_payout_ratio" then
    sd.payout_ratio.map .num
  else if criteria = "min_dividend_coverage" then
    fm.dividend_coverage_ratio.map .num
  else if criteria = "sectors" then
    sd.sector.map .str
  else if criteria = "min_pe_ratio" ∨ criteria = "max_pe_ratio" then
    fm.pe_ratio.map .num
  else if criteria = "min_roe" then
    fm.return_on_equity.map .num
  else if criteria = "max_debt_to_equity" then
    fm.debt_to_equity.map .num
  else if criteria = "min_years_dividend_growth" then
    some (.num (countGrowthYears dd))
  else if criteria = "ex_dividend_within_days" then
    (estimateNextExDividend now dd).map (fun d => .num ((d - now : ℤ) : ℚ))
  else none

/-- Python `<=` on two filter values.  Numbers and strings compare; a
mismatched pair raises `TypeError` in Python, modelled as `none` (the
exception propagates to the per-symbol `except` in `scan_stocks`, which
skips the stock). -/
def fvLe (a b : FilterVal) : Option Bool :=
  match a, b with
  | .num x, .num y => some (decide (x ≤ y))
  | .str x, .str y => some (decide (x ≤ y))
  | _, _ => none

/-- Python `a in b` on filter values.  Membership in a list is an equality
scan and never raises: a string is looked up in the list, and a non-string
value simply compares unequal to every string, giving `False`.  `a in b` for
two strings is a substring test.  Membership in a number raises `TypeError`,
modelled as `none`. -/
def fvMem (a b : FilterVal) : Option Bool :=
  match a, b with
  | .str s, .strs l => some (l.contains s)
  | _, .strs _ => some false
  | .str s, .str t => some (decide (s.toList <:+: t.toList))
  | _, _ => none

/-- `DividendScanner._apply_filter` (engine.py lines 274-291): a `None` actual
value fails the filter; the five known operators compare; any other operator
falls through to `return False`.  `none` marks a Python `TypeError` from a
mismatched comparison. -/
def applyFilter (actual : Option FilterVal) (filter_value : FilterVal) (operator : String) :
    Option Bool :=
  match actual with
  | none => some false
  | some a =>
    if operator = "gte" then fvLe filter_value a
    else if operator = "lte" then fvLe a filter_value
    else if operator = "eq" then some (a == filter_value)
    else if operator = "in" then fvMem a filter_value
    else if operator = "not_in" then (fvMem a filter_value).map (! ·)
    else some false

/-- `DividendScanner._passes_filters` (engine.py lines 206-226): all filters
must pass (logical AND); a missing actual value returns `False` immediately;
a `TypeError` (`none`) escapes to the caller. -/
def passesFilters (now : ℤ) (sd : StockData) (fm : FinancialMetrics)
    (dd : List DividendRow) : List ScanFilter → Option Bool
  | [] => some true
  | f :: rest =>
    match getFilterValue now f.criteria sd fm dd with
    | none => some false
    | some a =>
      match applyFilter (some a) f.value f.operator with
      | none => none
      | some false => some false
      | some true => passesFilters now sd fm dd rest

/-- The data pipeline the scanner queries per symbol (engine.py lines
145-149).  `get_stock_data` returning `none` models a falsy (`None` or
empty) stock dictionary, which the scanner skips. -/
structure DataPipeline where
  get_stock_data : String → Option StockData
  get_financial_metrics : String → FinancialMetrics
  get_dividend_history : String → List DividendRow

/-- One output row of `scan_stocks` (engine.py lines 162-180).  The
`scan_date` timestamp column is presentation-only and not modelled. -/
structure ScanResult where
  symbol : String
  name : String
  sector : String
  current_price : Option ℚ
  market_cap : Option ℚ
  dividend_yield : Option ℚ
  payout_ratio : Option ℚ
  pe_ratio : Option ℚ
  debt_to_equity : Option ℚ
  return_on_equity : Option ℚ
  dividend_coverage_ratio : Option ℚ
  dividend_health_score : ℚ
  last_dividend_amount : Option ℚ
  dividend_growth_rate : Option ℚ
  years_of_growth : ℕ
  next_ex_dividend_date : Option ℤ
deriving Repr, DecidableEq

/-- Building one result row (engine.py lines 162-180). -/
def mkScanResult (now : ℤ) (symbol : String) (sd : StockData)
    (fm : FinancialMetrics) (dd : List DividendRow) : ScanResult where
  symbol := symbol
  name := sd.name.getD ""
  sector := sd.sector.getD ""
  current_price := sd.current_price
  market_cap := sd.market_cap
  dividend_yield := sd.dividend_yield
  payout_ratio := sd.payout_ratio
  pe_ratio := fm.pe_ratio
  debt_to_equity := fm.debt_to_equity
  return_on_equity := fm.return_on_equity
  dividend_coverage_ratio := fm.dividend_coverage_ratio
  dividend_health_score := calculate_health_score sd fm dd
  last_dividend_amount := lastDividendAmount dd
  dividend_growth_rate := avgDividendGrowth dd
  years_of_growth := countGrowthYears dd
  next_ex_dividend_date := estimateNextExDividend now dd

/-- The numeric sort column of a result row, for `df.sort_values` (engine.py
line 196). -/
def resultField (r : ScanResult) (col : String) : Option ℚ :=
  if col = "current_price" then r.current_price
  else if col = "market_cap" then r.market_cap
  else if col = "dividend_yield" then r.dividend_yield
  else if col = "payout_ratio" then r.payout_ratio
  else if col = "pe_ratio" then r.pe_ratio
  else if col = "debt_to_equity" then r.debt_to_equity
  else if col = "return_on_equity" then r.return_on_equity
  else if col = "dividend_coverage_ratio" then r.dividend_coverage_ratio
  else if col = "dividend_health_score" then some r.dividend_health_score
  else if col = "last_dividend_amount" then r.last_dividend_amount
  else if col = "dividend_growth_rate" then r.dividend_growth_rate
  else if col = "years_of_growth" then some ((r.years_of_growth : ℤ) : ℚ)
  else if col = "next_ex_dividend_date" then r.next_ex_dividend_date.map (fun d => (d : ℚ))
  else none

/-- The pandas ordering on a sort column: missing values (NaN) are placed
last whatever the requested order; present values follow the requested
direction. -/
def scanKeyLe (ascending : Bool) (a b : Option ℚ) : Bool :=
  match a, b with
  | none, none => true
  | none, some _ => false
  | some _, none => true
  | some x, some y => if ascending then decide (x ≤ y) else decide (y ≤ x)

/-- `DividendScanner.scan_stocks` (engine.py lines 135-204): per symbol,
fetch the data, skip falsy stock data, keep the stocks passing all filters
(a per-symbol exception — `passesFilters` returning `none` — is caught and
the symbol skipped), then sort by the configured column and apply the limit
(`if config.limit:` is a truthiness test, so a limit of `0` is ignored). -/
def scan_stocks (pipe : DataPipeline) (now : ℤ) (symbols : List String)
    (config : ScanConfiguration) : List ScanResult :=
  let results := symbols.filterMap (fun sym =>
    match pipe.get_stock_data sym with
    | none => none
    | some sd =>
      let fm := pipe.get_financial_metrics sym
      let dd := pipe.get_dividend_history sym
      match passesFilters now sd fm dd config.filters with
      | some true => some (mkScanResult now sym sd fm dd)
      | _ => none)
  let ascending := config.sort_order = "asc"
  let sorted := List.insertionSort
    (fun a b => scanKeyLe ascending (resultField a config.sort_by) (resultField b config.sort_by) = true)
    results
  match config.limit with
  | some n => if n ≠ 0 then sorted.take n else sorted
  | none => sorted

/-- One holding of the portfolio passed to
`DividendRiskManager.assess_portfolio_risk` (risk_management.py): a
dictionary with mandatory allocation fields and optional
`predicted_yield` / `sustainability` read with defaults 4 and 70. -/
structure Holding where
  symbol : String
  allocation_amount : ℚ
  allocation_percentage : ℚ
  predicted_yield : Option ℚ := none
  sustainability : Option ℚ := none
deriving Repr, DecidableEq

/-- Python `max()` over a list of rationals: `none` on the empty list, where
Python raises `ValueError`. -/
def pyMax : List ℚ → Option ℚ
  | [] => none
  | h :: t => some (t.foldl max h)

/-- Python `min()` over a list of rationals: `none` on the empty list, where
Python raises `ValueError`. -/
def pyMin : List ℚ → Option ℚ
  | [] => none
  | h :: t => some (t.foldl min h)

/-- `np.mean` of a list (division by the length; the guarded call sites only
use it on non-empty lists). -/
def listMean (l : List ℚ) : ℚ := l.sum / (l.length : ℚ)

/-- The per-holding volatility estimate of `DividendRiskManager._calculate_var`
(risk_management.py lines 116-125): a 2% base daily volatility scaled up by
the predicted yield and by low sustainability. -/
def holdingVolatility (h : Holding) : ℚ :=
  let base_volatility : ℚ := 2/100
  let yield_factor := h.predicted_yield.getD 4 / 100
  let volatility := base_volatility * (1 + yield_factor)
  let sustainability_factor := h.sustainability.getD 70 / 100
  volatility * (3/2 - sustainability_factor * (1/2))

/-- One simulated daily portfolio return (risk_management.py lines 112-130):
the weighted sum over holdings of `np.random.normal(0, volatility)`, with the
standard-normal draw of holding `j` supplied by `z j` (so the sampled return
is `volatility * z j`). -/
def simulatedDailyReturn (portfolio : List Holding) (z : ℕ → ℚ) : ℚ :=
  (portfolio.enum.map (fun p =>
    (p.2.allocation_percentage / 100) * (holdingVolatility p.2 * z p.1))).sum

/-- The `total_investment` sum of `_calculate_var` (risk_management.py lines
109-110). -/
def totalInvestment (portfolio : List Holding) : ℚ :=
  (portfolio.map (·.allocation_amount)).sum

/-- `DividendRiskManager._calculate_var` (risk_management.py lines 102-140).
The source runs `num_simulations = 10000` Monte-Carlo simulations, consuming
fresh normal draws from the global random state; the embedding takes the
consumed stream of standard-normal draws as an explicit input, one draw
function per simulation, so the number of simulations is the length of
`draws`.  The simulated values are sorted ascending, the value at index
`int((1 - confidence) * num_simulations)` is read (out-of-range indexing,
impossible in the source's fixed setup, is `none`), and the loss against the
total investment is floored at 0. -/
def calculate_var (portfolio : List Holding) (draws : List (ℕ → ℚ)) (confidence : ℚ) :
    Option ℚ :=
  let num_simulations := draws.length
  let total_investment := totalInvestment portfolio
  let portfolio_values := draws.map (fun z =>
    total_investment * (1 + simulatedDailyReturn portfolio z))
  let sorted := List.insertionSort (fun a b : ℚ => a ≤ b) portfolio_values
  let var_index := (pyTrunc ((1 - confidence) * (num_simulations : ℚ))).toNat
  (sorted[var_index]?).map (fun v => max 0 (total_investment - v))

/-- The result dictionary of `assess_portfolio_risk` (risk_management.py lines
81-100).  The percent-formatted report strings are modelled by their numeric
values; the free-text recommendation list is presentation-only and not
modelled. -/
structure RiskAssessment where
  overall_risk : String
  risk_score : ℚ
  concentration_risk : String
  max_concentration : ℚ
  diversification_score : ℚ
  sustainability_risk : String
  avg_sustainability : ℚ
  yield_risk : String
  avg_yield : ℚ
  var_95 : ℚ
  var_99 : ℚ
  max_1day_loss_95 : ℚ
  max_1day_loss_99 : ℚ
deriving Repr, DecidableEq

/-- `DividendRiskManager.assess_portfolio_risk` (risk_management.py lines
29-100).  The two `_calculate_var` calls consume separate portions of the
random stream, passed here as `d95` and `d99`.  A `none` result marks the
`ValueError` Python raises at `max(concentrations)` (line 38) on an empty
portfolio (in which case `min(...)` and `max(yields)` would raise too), an
out-of-range VaR lookup, or the `ZeroDivisionError` Python raises at the
`max_1day_loss` ratios (lines 96-97) when the allocation amounts sum to zero:
there both VaR values are exactly 0 (an int, since `max(0, 0.0)` returns its
first argument), and `0/0` raises. -/
def assess_portfolio_risk (portfolio : List Holding) (d95 d99 : List (ℕ → ℚ)) :
    Option RiskAssessment :=
  let total_value := (portfolio.map (·.allocation_amount)).sum
  let concentrations := portfolio.map (·.allocation_percentage)
  match pyMax concentrations with
  | none => none
  | some max_concentration =>
    let concentration_risk :=
      if 25 < max_concentration then "HIGH"
      else if 15 < max_concentration then "MEDIUM" else "LOW"
    let num_holdings := portfolio.length
    let diversification_score : ℚ := min 100 ((num_holdings : ℚ) / 15 * 100)
    let sustainability_scores := portfolio.map (fun h => h.sustainability.getD 70)
    let avg_sustainability := listMean sustainability_scores
    match pyMin sustainability_scores with
    | none => none
    | some min_sustainability =>
      let sustainability_risk :=
        if 70 < min_sustainability then "LOW"
        else if 50 < min_sustainability then "MEDIUM" else "HIGH"
      let yields := portfolio.map (fun h => h.predicted_yield.getD 4)
      let avg_yield := listMean yields
      match pyMax yields with
      | none => none
      | some max_yield =>
        let yield_risk :=
          if 12 < max_yield then "HIGH"
          else if 8 < avg_yield then "MEDIUM" else "LOW"
        match calculate_var portfolio d95 (95/100), calculate_var portfolio d99 (99/100) with
        | some var_95, some var_99 =>
          let rf_concentration : ℚ :=
            if concentration_risk = "HIGH" then 40
            else if concentration_risk = "MEDIUM" then 20 else 10
          let rf_diversification : ℚ := max 0 (40 - diversification_score / 2)
          let rf_sustainability : ℚ :=
            if sustainability_risk = "HIGH" then 30
            else if sustainability_risk = "MEDIUM" then 15 else 5
          let rf_yield : ℚ :=
            if yield_risk = "HIGH" then 25
            else if yield_risk = "MEDIUM" then 12 else 5
          let overall_risk_score := rf_concentration + rf_diversification + rf_sustainability + rf_yield
          let overall_risk :=
            if 80 < overall_risk_score then "🔴 HIGH RISK"
            else if 50 < overall_risk_score then "🟡 MEDIUM RISK" else "🟢 LOW RISK"
          if total_value = 0 then none
          else some {
            overall_risk := overall_risk
            risk_score := overall_risk_score
            concentration_risk := concentration_risk
            max_concentration := max_concentration
            diversification_score := diversification_score
            sustainability_risk := sustainability_risk
            avg_sustainability := avg_sustainability
            yield_risk := yield_risk
            avg_yield := avg_yield
            var_95 := var_95
            var_99 := var_99
            max_1day_loss_95 := var_95 / total_value * 100
            max_1day_loss_99 := var_99 / total_value * 100 }
        | _, _ => none

/-- One row of the synthetic historical data used by `DividendBacktester`
(risk_management.py lines 228-235); only the columns the rebalancing loop
reads are modelled. -/
structure MarketRow where
  date : ℤ
  symbol : String
  price : ℚ
  dividend_yield : ℚ
deriving Repr, DecidableEq

/-- A logged transaction of `backtest_strategy` (risk_management.py lines
304-310 and 323-329). -/
structure Transaction where
  date : ℤ
  symbol : String
  action : String
  shares : ℤ
  price : ℚ
deriving Repr, DecidableEq

/-- A portfolio-evolution record of `backtest_strategy` (risk_management.py
lines 340-345). -/
structure PortfolioSnapshot where
  date : ℤ
  portfolio_value : ℚ
  cash : ℚ
  invested : ℚ
deriving Repr, DecidableEq

/-- The loop state of `backtest_strategy`: the holdings dictionary (insertion
ordered), cash, the transaction log and the recorded portfolio values. -/
structure BacktestState where
  portfolio : List (String × ℤ)
  cash : ℚ
  transactions : List Transaction
  portfolio_values : List PortfolioSnapshot
deriving Repr, DecidableEq

/-- The latest row for `sym` on or before day `d` (the history is stored
sorted by symbol then date, so `groupby('symbol').last()` on the rows with
`date <= rebalance_date` keeps exactly this row). -/
def latestRowOnOrBefore (hist : List MarketRow) (d : ℤ) (sym : String) : Option MarketRow :=
  (hist.filter (fun r => r.symbol == sym && decide (r.date ≤ d))).getLast?

/-- `current_data` of the rebalancing loop (risk_management.py lines 272-275):
one latest row per symbol with data on or before the rebalance date; pandas
`groupby` sorts the group keys, hence the sorted deduplicated symbol list. -/
def currentData (hist : List MarketRow) (d : ℤ) : List MarketRow :=
  let syms := List.insertionSort (fun a b : String => a ≤ b) (hist.map (·.symbol)).dedup
  syms.filterMap (latestRowOnOrBefore hist d)

/-- The first quoted price of `sym` among the qualified rows
(`qualified_stocks[qualified_stocks['symbol'] == symbol]['price'].iloc[0]`,
risk_management.py lines 289-291); the call sites guard membership, so the
default is never read. -/
def qualifiedPrice (qualified : List MarketRow) (sym : String) : ℚ :=
  ((qualified.filter (fun r => r.symbol == sym)).head?.map (·.price)).getD 0

/-- The body of one iteration of the rebalancing loop of
`DividendBacktester.backtest_strategy` (risk_management.py lines 270-345):
build the qualified universe (trailing yield at least `min_yield`; if empty,
`continue` leaves the state untouched), mark the portfolio to market counting
only the holdings whose symbol is still qualified, sell exactly those
holdings, then buy an equal-weight allocation of the qualified stocks while
cash suffices, and record the resulting portfolio value. -/
def rebalanceStep (hist : List MarketRow) (min_yield : ℚ) (st : BacktestState)
    (rebalance_date : ℤ) : BacktestState :=
  let current_data := currentData hist rebalance_date
  let qualified_stocks := current_data.filter (fun r => decide (min_yield ≤ r.dividend_yield))
  if qualified_stocks.isEmpty then st
  else
    let qsyms := qualified_stocks.map (·.symbol)
    let portfolio_value := st.portfolio.foldl (fun acc p =>
      if qsyms.contains p.1 then acc + (p.2 : ℚ) * qualifiedPrice qualified_stocks p.1 else acc)
      st.cash
    let target_allocation := portfolio_value / (qualified_stocks.length : ℚ)
    let cash_after_sell := st.portfolio.foldl (fun c p =>
      if qsyms.contains p.1 then c + (p.2 : ℚ) * qualifiedPrice qualified_stocks p.1 else c)
      st.cash
    let sell_txns := st.portfolio.filterMap (fun p =>
      if qsyms.contains p.1 then
        some ⟨rebalance_date, p.1, "SELL", p.2, qualifiedPrice qualified_stocks p.1⟩
      else none)
    let buys := qualified_stocks.foldl
      (fun (acc : List (String × ℤ) × ℚ × List Transaction) r =>
        let shares_to_buy := pyTrunc (target_allocation / r.price)
        let cost := (shares_to_buy : ℚ) * r.price
        if cost ≤ acc.2.1 then
          (acc.1 ++ [(r.symbol, shares_to_buy)], acc.2.1 - cost,
           acc.2.2 ++ [⟨rebalance_date, r.symbol, "BUY", shares_to_buy, r.price⟩])
        else acc)
      ([], cash_after_sell, [])
    let new_portfolio := buys.1
    let new_cash := buys.2.1
    let current_portfolio_value := new_portfolio.foldl (fun acc p =>
      if qsyms.contains p.1 then acc + (p.2 : ℚ) * qualifiedPrice qualified_stocks p.1 else acc)
      new_cash
    { portfolio := new_portfolio
      cash := new_cash
      transactions := st.transactions ++ sell_txns ++ buys.2.2
      portfolio_values := st.portfolio_values ++
        [⟨rebalance_date, current_portfolio_value, new_cash,
          current_portfolio_value - new_cash⟩] }

/-- The whole rebalancing loop of `backtest_strategy` (risk_management.py
lines 252-345), folded over the rebalance dates from the empty portfolio and
the initial capital. -/
def backtestLoop (hist : List MarketRow) (min_yield : ℚ) (dates : List ℤ)
    (initial_capital : ℚ) : BacktestState :=
  dates.foldl (rebalanceStep hist min_yield) ⟨[], initial_capital, [], []⟩

/-! Helper lemmas shared by the claim theorems. -/

theorem countConsecutive_eq_takeWhile (l : List ℚ) :
    countConsecutive l = (l.takeWhile (fun r => decide (0 < r))).length := by
  induction l with
  | nil => rfl
  | cons a t ih =>
    rw [List.takeWhile_cons]
    unfold countConsecutive
    by_cases h : 0 < a
    · simp [h, ih]
    · simp [h]

theorem pyMax_isSome {l : List ℚ} (h : l ≠ []) : (pyMax l).isSome = true := by
  cases l with
  | nil => exact absurd rfl h
  | cons a t => rfl

/-- Unfolding `calculate_var` to its quantile lookup. -/
theorem calculate_var_eq (p : List Holding) (draws : List (ℕ → ℚ)) (c : ℚ) :
    calculate_var p draws c =
      ((List.insertionSort (fun a b : ℚ => a ≤ b)
          (draws.map (fun z => totalInvestment p * (1 + simulatedDailyReturn p z))))[
        (pyTrunc ((1 - c) * (draws.length : ℚ))).toNat]?).map
        (fun v => max 0 (totalInvestment p - v)) := rfl

/-- The quantile index is always in range when there is at least one
simulation and the confidence level is positive. -/
theorem pyTrunc_index_lt (c : ℚ) (n : ℕ) (hn : 0 < n) (hc : 0 < c) :
    (pyTrunc ((1 - c) * (n : ℚ))).toNat < n := by
  have hnq : (0 : ℚ) < (n : ℚ) := by exact_mod_cast hn
  have hlt : (1 - c) * (n : ℚ) < (n : ℚ) := by nlinarith
  have hint : pyTrunc ((1 - c) * (n : ℚ)) < (n : ℤ) := by
    unfold pyTrunc
    split
    · exact Int.floor_lt.mpr (by exact_mod_cast hlt)
    · have hpos : (0 : ℤ) ≤ ⌊-((1 - c) * (n : ℚ))⌋ := by
        apply Int.floor_nonneg.mpr
        next hq => linarith [lt_of_not_le hq]
      omega
  omega

theorem calculate_var_isSome (p : List Holding) (draws : List (ℕ → ℚ)) (c : ℚ)
    (hd : draws ≠ []) (hc : 0 < c) : (calculate_var p draws c).isSome = true := by
  rw [calculate_var_eq]
  have hn : 0 < draws.length := List.length_pos.mpr hd
  have hidx : (pyTrunc ((1 - c) * ((draws.length : ℕ) : ℚ))).toNat <
      (List.insertionSort (fun a b : ℚ => a ≤ b)
        (draws.map (fun z => totalInvestment p * (1 + simulatedDailyReturn p z)))).length := by
    rw [List.length_insertionSort, List.length_map]
    exact pyTrunc_index_lt c draws.length hn hc
  rw [List.getElem?_eq_getElem hidx]
  rfl

theorem applyFilter_invalid_op (a v : FilterVal) (op : String)
    (h : op ∉ validOperators) : applyFilter (some a) v op = some false := by
  simp only [validOperators, List.mem_cons, List.not_mem_nil, or_false, not_or] at h
  obtain ⟨h1, h2, h3, h4, h5⟩ := h
  simp [applyFilter, h1, h2, h3, h4, h5]

theorem getFilterValue_invalid_criteria (now : ℤ) (crit : String) (sd : StockData)
    (fm : FinancialMetrics) (dd : List DividendRow)
    (h : crit ∉ validCriteria) : getFilterValue now crit sd fm dd = none := by
  simp only [validCriteria, List.mem_cons, List.not_mem_nil, or_false, not_or] at h
  obtain ⟨h1, h2, h3, h4, h5, h6, h7, h8, h9, h10, h11, h12, h13⟩ := h
  simp [getFilterValue, h1, h2, h3, h4, h5, h6, h7, h8, h9, h10, h11, h12, h13]

theorem passesFilters_eq_true_iff (now : ℤ) (sd : StockData) (fm : FinancialMetrics)
    (dd : List DividendRow) (fs : List ScanFilter) :
    passesFilters now sd fm dd fs = some true ↔
      ∀ f ∈ fs, ∃ v, getFilterValue now f.criteria sd fm dd = some v ∧
        applyFilter (some v) f.value f.operator = some true := by
  induction fs with
  | nil => simp [passesFilters]
  | cons g rest ih =>
    simp only [passesFilters]
    cases hgv : getFilterValue now g.criteria sd fm dd with
    | none =>
      constructor
      · intro h; cases h
      · intro h
        obtain ⟨v, hv, _⟩ := h g (List.mem_cons_self g rest)
        rw [hgv] at hv
        cases hv
    | some a =>
      dsimp only
      cases haf : applyFilter (some a) g.value g.operator with
      | none =>
        dsimp only
        constructor
        · intro h; cases h
        · intro h
          obtain ⟨v, hv, hav⟩ := h g (List.mem_cons_self g rest)
          rw [hgv] at hv
          cases hv
          rw [haf] at hav
          cases hav
      | some b =>
        cases b with
        | false =>
          dsimp only
          constructor
          · intro h; cases h
          · intro h
            obtain ⟨v, hv, hav⟩ := h g (List.mem_cons_self g rest)
            rw [hgv] at hv
            cases hv
            rw [haf] at hav
            cases hav
        | true =>
          dsimp only
          rw [ih]
          constructor
          · intro h f hf
            rcases List.mem_cons.mp hf with rfl | hmem
            · exact ⟨a, hgv, haf⟩
            · exact h f hmem
          · intro h f hf
            exact h f (List.mem_cons_of_mem g hf)

theorem yieldScore_nonneg (sd : StockData) : 0 ≤ yieldScore sd := by
  unfold yieldScore
  dsimp only
  split_ifs <;> norm_num

theorem payoutScore_nonneg (sd : StockData) (fm : FinancialMetrics) :
    0 ≤ payoutScore sd fm := by
  unfold payoutScore
  dsimp only
  split_ifs <;> norm_num

theorem growthScore_nonneg (dd : List DividendRow) : 0 ≤ growthScore dd := by
  unfold growthScore
  dsimp only
  split_ifs <;> positivity

theorem financialHealthScore_nonneg (fm : FinancialMetrics) :
    0 ≤ financialHealthScore fm := by
  unfold financialHealthScore
  rcases fm.pe_ratio with _ | pe <;> rcases fm.debt_to_equity with _ | dte <;>
    rcases fm.return_on_equity with _ | roe <;> dsimp only <;>
    first
      | (split_ifs <;> norm_num)
      | norm_num

theorem coverageScore_nonneg (fm : FinancialMetrics) : 0 ≤ coverageScore fm := by
  unfold coverageScore
  rcases fm.dividend_coverage_ratio with _ | c
  · norm_num
  · dsimp only
    split_ifs <;> norm_num

/-! The claim theorems. -/

/-- C7: For every input (snapshot, metrics, history), the health score
returned by `calculate_health_score` lies in the closed interval [0, 100].
The upper bound is the explicit `min(score, max_score)` cap; the lower bound
holds because every scoring component only ever adds non-negative points. -/
theorem health_score_bounded (sd : StockData) (fm : FinancialMetrics)
    (dd : List DividendRow) :
    0 ≤ calculate_health_score sd fm dd ∧ calculate_health_score sd fm dd ≤ 100 := by
  constructor
  · unfold calculate_health_score
    have h1 := yieldScore_nonneg sd
    have h2 := payoutScore_nonneg sd fm
    have h3 := growthScore_nonneg dd
    have h4 := financialHealthScore_nonneg fm
    have h5 := coverageScore_nonneg fm
    have : (0:ℚ) ≤ yieldScore sd + payoutScore sd fm + growthScore dd +
        financialHealthScore fm + coverageScore fm := by linarith
    exact le_min this (by norm_num)
  · exact min_le_right _ _

/-- C4: the claim (and the spec) award the +7 debt sub-bonus whenever
`debt_to_equity` is present and at most 0.5, in particular for a present
value of 0 (no debt).  The code's guard `if debt_to_equity and
debt_to_equity <= 0.5` uses Python truthiness, so a present `0` is treated
like a missing value and earns no bonus: on an input whose only present
metric is `debt_to_equity = 0`, the whole health score is 0 where the claim
requires 7.  A slightly positive debt ratio (0.1) does earn the 7 points,
isolating the truthiness slip. -/
theorem zero_debt_gets_no_bonus :
    calculate_health_score {} { debt_to_equity := some 0 } [] = 0 ∧
    financialHealthScore { debt_to_equity := some 0 } = 0 ∧
    financialHealthScore { debt_to_equity := some (1/10) } = 7 :=
  ⟨by with_unfolding_all rfl, by with_unfolding_all rfl, by with_unfolding_all rfl⟩

/-- The counting rule exactly as the claim states it: walk the growth-rate
entries most-recent-first and stop at the first entry that is non-positive
or missing (null), counting the strictly positive entries seen before the
stop. -/
def claimedCountLoop : List (Option ℚ) → ℕ
  | [] => 0
  | some r :: rest => if 0 < r then claimedCountLoop rest + 1 else 0
  | none :: _ => 0

/-- `countGrowthYears` as the claim describes it (a null entry terminates the
count instead of being skipped). -/
def countGrowthYearsClaimed (dd : List DividendRow) : ℕ :=
  claimedCountLoop (dd.map (·.dividend_growth_rate)).reverse

/-- C5 (counterexample): on a history whose growth-rate column is
[1, null, 2] (oldest first), the code's `dropna()` removes the null before
the trailing count, yielding 2 consecutive growth years, while the claim's
rule — stop at the first missing entry when walking most-recent-first —
yields 1.  The null sitting between positive entries is skipped, not
terminating. -/
theorem growth_years_null_skipped_cex :
    countGrowthYears [⟨0, 1, some 1⟩, ⟨1, 1, none⟩, ⟨2, 1, some 2⟩] = 2 ∧
    countGrowthYearsClaimed [⟨0, 1, some 1⟩, ⟨1, 1, none⟩, ⟨2, 1, some 2⟩] = 1 ∧
    countGrowthYears [⟨0, 1, some 1⟩, ⟨1, 1, none⟩, ⟨2, 1, some 2⟩] ≠
      countGrowthYearsClaimed [⟨0, 1, some 1⟩, ⟨1, 1, none⟩, ⟨2, 1, some 2⟩] :=
  ⟨by with_unfolding_all rfl, by with_unfolding_all rfl, by with_unfolding_all decide⟩

/-- C5 (amended): `consecutive_growth_years` equals the count of trailing
strictly-positive entries of the growth-rate list after the null entries are
removed (`dropna()`), taken most-recent-first and stopping at the first
non-positive remaining entry; null entries are skipped, they do not
terminate the count. -/
theorem growth_years_trailing_characterization (dd : List DividendRow) :
    countGrowthYears dd =
      (((dd.map (·.dividend_growth_rate)).filterMap id).reverse.takeWhile
        (fun r => decide (0 < r))).length := by
  unfold countGrowthYears
  split
  · next h =>
    rw [List.isEmpty_iff.mp h]
    rfl
  · exact countConsecutive_eq_takeWhile _

/-- C1: the claim requires every rebalance with a qualifying symbol to value
the portfolio as cash plus the mark-to-market value of **every** held
position and to liquidate **every** holding with a logged SELL.  The code's
valuation and sell loops guard on `if symbol in qualified_stocks`, so a held
position whose yield has fallen below `min_yield` is neither valued nor
sold: here the state holds 10 shares of "A" (latest price 100, so 1000 of
market value) and 1000 cash; at the rebalance date only "B" qualifies.  The
resulting state shows no SELL transaction at all, "A" silently removed from
the holdings, and a recorded portfolio value of 1000 — the claim demands a
SELL of "A" and a portfolio value of 2000. -/
theorem backtester_drops_unqualified_holding :
    rebalanceStep [⟨1, "A", 100, 2/100⟩, ⟨1, "B", 50, 5/100⟩] (3/100)
        ⟨[("A", 10)], 1000, [], []⟩ 5 =
      ⟨[("B", 20)], 0, [⟨5, "B", "BUY", 20, 50⟩], [⟨5, 1000, 0, 1000⟩]⟩ ∧
    (latestRowOnOrBefore [⟨1, "A", 100, 2/100⟩, ⟨1, "B", 50, 5/100⟩] 5 "A").map
        (·.price) = some 100 :=
  ⟨by with_unfolding_all rfl, by with_unfolding_all rfl⟩

/-- C9: at a rebalance date where no symbol's trailing yield reaches
`min_yield`, the `continue` at the empty-qualified check leaves the whole
backtest state — cash, holdings, transaction log (and even the recorded
portfolio values) — unchanged. -/
theorem empty_qualified_rebalance_noop (hist : List MarketRow) (min_yield : ℚ)
    (st : BacktestState) (d : ℤ)
    (h : (currentData hist d).filter (fun r => decide (min_yield ≤ r.dividend_yield)) = []) :
    rebalanceStep hist min_yield st d = st := by
  simp [rebalanceStep, h]

theorem empty_qualified_rebalance_noop_witness :
    ((currentData [⟨1, "A", 100, 2/100⟩] 5).filter
        (fun r => decide ((3/100 : ℚ) ≤ r.dividend_yield)) = []) ∧
    rebalanceStep [⟨1, "A", 100, 2/100⟩] (3/100) ⟨[("A", 5)], 500, [], []⟩ 5 =
      ⟨[("A", 5)], 500, [], []⟩ :=
  ⟨by with_unfolding_all rfl,
   empty_qualified_rebalance_noop _ _ _ _ (by with_unfolding_all rfl)⟩

/-- C2 (counterexample): `_apply_filter` has no `raise` — an operator outside
the known five falls through to `return False`, and an unknown criterion tag
makes `_get_filter_value` fall through to `return None`.  On a stock whose
dividend yield (5%) satisfies the filter value (3%) under the valid `gte`
operator, the same filter with the misspelled operator `ge` is silently
treated as failed (`some false`, the stock excluded), indistinguishable from
a data failure and with no error reaching the caller; an unknown criterion
tag behaves the same way. -/
theorem invalid_filter_silently_excluded_cex :
    passesFilters 0 { dividend_yield := some (5/100) } {} []
      [⟨"min_dividend_yield", .num (3/100), "ge"⟩] = some false ∧
    passesFilters 0 { dividend_yield := some (5/100) } {} []
      [⟨"min_dividend_yield", .num (3/100), "gte"⟩] = some true ∧
    passesFilters 0 { dividend_yield := some (5/100) } {} []
      [⟨"unknown_tag", .num (3/100), "gte"⟩] = some false :=
  ⟨by with_unfolding_all rfl, by with_unfolding_all rfl, by with_unfolding_all rfl⟩

/-- C2 (amended): a `ScanFilter` whose operator is outside
{gte, lte, eq, in, not_in} or whose criterion tag is outside the enumerated
set is silently treated as a failed filter — any filter list containing such
a filter can never evaluate to a pass, so the stock is excluded; no error is
raised to the caller. -/
theorem invalid_filter_never_passes (now : ℤ) (sd : StockData)
    (fm : FinancialMetrics) (dd : List DividendRow) (fs : List ScanFilter)
    (f : ScanFilter) (hf : f ∈ fs)
    (hbad : f.operator ∉ validOperators ∨ f.criteria ∉ validCriteria) :
    passesFilters now sd fm dd fs ≠ some true := by
  induction fs with
  | nil => cases hf
  | cons g rest ih =>
    simp only [passesFilters]
    rcases List.mem_cons.mp hf with rfl | hmem
    · rcases hbad with hop | hcrit
      · cases hgv : getFilterValue now f.criteria sd fm dd with
        | none => simp
        | some a =>
          dsimp only
          rw [applyFilter_invalid_op a f.value f.operator hop]
          simp
      · rw [getFilterValue_invalid_criteria now f.criteria sd fm dd hcrit]
        simp
    · cases hgv : getFilterValue now g.criteria sd fm dd with
      | none => simp
      | some a =>
        dsimp only
        cases haf : applyFilter (some a) g.value g.operator with
        | none => simp
        | some b =>
          cases b with
          | false => simp
          | true => exact ih hmem

theorem invalid_filter_never_passes_witness :
    ((⟨"min_dividend_yield", .num (3/100), "ge"⟩ : ScanFilter) ∈
      [(⟨"min_dividend_yield", .num (3/100), "ge"⟩ : ScanFilter)]) ∧
    ("ge" ∉ validOperators) ∧
    passesFilters 0 { dividend_yield := some (5/100) } {} []
      [⟨"min_dividend_yield", .num (3/100), "ge"⟩] ≠ some true :=
  ⟨List.mem_cons_self _ _, by decide,
   invalid_filter_never_passes 0 { dividend_yield := some (5/100) } {} [] _ _
     (List.mem_cons_self _ _) (Or.inl (by decide))⟩

/-- C3 (counterexample): on a single-holding portfolio with sustainability
score exactly 50, the claim requires the label MEDIUM (50 ≤ min < 70), but
the code's chain `"LOW" if min > 70 else "MEDIUM" if min > 50 else "HIGH"`
assigns HIGH (and a minimum of exactly 70 likewise gets MEDIUM, not LOW). -/
theorem sustainability_boundary_cex :
    (assess_portfolio_risk [⟨"A", 100, 30, some 4, some 50⟩]
        [fun _ => 0] [fun _ => 0]).map (·.sustainability_risk) = some "HIGH" ∧
    "HIGH" ≠ "MEDIUM" :=
  ⟨by with_unfolding_all rfl, by decide⟩

/-- C3 (amended): for every portfolio the assessor can label (and whatever
the simulation draws), sustainability risk is HIGH exactly when the minimum
sustainability score (with the Python default 70 for missing values) is at
most 50, MEDIUM exactly when it is strictly above 50 and at most 70, and LOW
exactly when it is strictly above 70; in particular a minimum of exactly 50
yields HIGH and a minimum of exactly 70 yields MEDIUM. -/
theorem sustainability_risk_thresholds (p : List Holding) (d95 d99 : List (ℕ → ℚ))
    (m : ℚ) (hm : pyMin (p.map (fun h => h.sustainability.getD 70)) = some m)
    (r : RiskAssessment) (hr : assess_portfolio_risk p d95 d99 = some r) :
    (r.sustainability_risk = "HIGH" ↔ m ≤ 50) ∧
    (r.sustainability_risk = "MEDIUM" ↔ 50 < m ∧ m ≤ 70) ∧
    (r.sustainability_risk = "LOW" ↔ 70 < m) := by
  unfold assess_portfolio_risk at hr
  dsimp only at hr
  cases hmax : pyMax (p.map (fun h => h.allocation_percentage)) with
  | none => rw [hmax] at hr; cases hr
  | some mc =>
  rw [hmax] at hr
  dsimp only at hr
  rw [hm] at hr
  dsimp only at hr
  cases hymax : pyMax (p.map (fun h => h.predicted_yield.getD 4)) with
  | none => rw [hymax] at hr; dsimp only at hr; cases hr
  | some my =>
  rw [hymax] at hr
  dsimp only at hr
  cases hv95 : calculate_var p d95 (95/100) with
  | none => rw [hv95] at hr; dsimp only at hr; cases hr
  | some v95 =>
  cases hv99 : calculate_var p d99 (99/100) with
  | none => rw [hv95, hv99] at hr; dsimp only at hr; cases hr
  | some v99 =>
    rw [hv95, hv99] at hr
    dsimp only at hr
    split at hr
    · cases hr
    · injection hr with hrec
      subst hrec
      dsimp only
      split_ifs with h1 h2
      · exact ⟨⟨fun hs => absurd hs (by decide), fun hc => absurd h1 (by linarith)⟩,
               ⟨fun hs => absurd hs (by decide), fun hc => absurd h1 (by linarith)⟩,
               ⟨fun _ => h1, fun _ => rfl⟩⟩
      · exact ⟨⟨fun hs => absurd hs (by decide), fun hc => absurd h2 (by linarith)⟩,
               ⟨fun _ => ⟨h2, by linarith⟩, fun _ => rfl⟩,
               ⟨fun hs => absurd hs (by decide), fun hc => absurd hc h1⟩⟩
      · exact ⟨⟨fun _ => by linarith, fun _ => rfl⟩,
               ⟨fun hs => absurd hs (by decide), fun hc => absurd hc.1 h2⟩,
               ⟨fun hs => absurd hs (by decide), fun hc => absurd hc h1⟩⟩

theorem sustainability_risk_thresholds_witness :
    pyMin (([⟨"A", 100, 30, some 4, some 50⟩] : List Holding).map
        (fun h => h.sustainability.getD 70)) = some 50 ∧
    assess_portfolio_risk [⟨"A", 100, 30, some 4, some 50⟩] [fun _ => 0] [fun _ => 0] =
      some ⟨"🔴 HIGH RISK", 335/3, "HIGH", 30, 20/3, "HIGH", 50, "LOW", 4, 0, 0, 0, 0⟩ ∧
    ((⟨"🔴 HIGH RISK", 335/3, "HIGH", 30, 20/3, "HIGH", 50, "LOW", 4, 0, 0, 0, 0⟩ :
        RiskAssessment).sustainability_risk = "HIGH" ↔ (50 : ℚ) ≤ 50) :=
  ⟨by with_unfolding_all rfl, by with_unfolding_all rfl,
   (sustainability_risk_thresholds [⟨"A", 100, 30, some 4, some 50⟩]
      [fun _ => 0] [fun _ => 0] 50 (by with_unfolding_all rfl)
      ⟨"🔴 HIGH RISK", 335/3, "HIGH", 30, 20/3, "HIGH", 50, "LOW", 4, 0, 0, 0, 0⟩
      (by with_unfolding_all rfl)).1⟩

/-- C10: `assess_portfolio_risk` on an empty portfolio hits
`max(concentrations)` on an empty list, which raises `ValueError` (modelled
as `none`), so the operation never returns an assessment for an empty
portfolio — it carries the unstated precondition that the portfolio be
non-empty.  Conversely, a non-empty portfolio whose allocation amounts do
not sum to zero (with a non-degenerate simulation stream, as in the
source's fixed 10000-simulation setup) always receives an assessment; a
zero total allocation is a further, independent error path — a
`ZeroDivisionError` at the `max_1day_loss` ratios. -/
theorem assess_requires_nonempty (p : List Holding) (d95 d99 : List (ℕ → ℚ)) :
    (p = [] → assess_portfolio_risk p d95 d99 = none) ∧
    (p ≠ [] → (p.map (fun h => h.allocation_amount)).sum ≠ 0 →
      d95 ≠ [] → d99 ≠ [] →
      (assess_portfolio_risk p d95 d99).isSome = true) := by
  constructor
  · rintro rfl
    rfl
  · intro hp htot h95 h99
    obtain ⟨a, t, rfl⟩ := List.exists_cons_of_ne_nil hp
    unfold assess_portfolio_risk
    dsimp only [List.map, pyMax, pyMin]
    dsimp only [List.map] at htot
    obtain ⟨v95, hv95⟩ := Option.isSome_iff_exists.mp
      (calculate_var_isSome (a :: t) d95 (95/100) h95 (by norm_num))
    obtain ⟨v99, hv99⟩ := Option.isSome_iff_exists.mp
      (calculate_var_isSome (a :: t) d99 (99/100) h99 (by norm_num))
    rw [hv95, hv99]
    dsimp only
    rw [if_neg htot]
    rfl

theorem assess_requires_nonempty_witness :
    assess_portfolio_risk [] [] [] = none ∧
    (assess_portfolio_risk [⟨"A", 100, 30, some 4, some 50⟩]
      [fun _ => 0] [fun _ => 0]).isSome = true :=
  ⟨(assess_requires_nonempty [] [] []).1 rfl,
   (assess_requires_nonempty _ _ _).2 (List.cons_ne_nil _ _)
     (by norm_num [List.map]) (List.cons_ne_nil _ _) (List.cons_ne_nil _ _)⟩

/-- C8 (counterexample): inside one assessment the two `_calculate_var`
calls consume separate, independent portions of the random stream, so the
claim's universal statement over arbitrary draw sequences fails: on a
one-stock portfolio, a run whose 95%-call draws a large loss (z = -10) while
the 99%-call draws no movement (z = 0) reports VaR95 = 23920 and VaR99 = 0,
violating VaR99 ≥ VaR95. -/
theorem var_confidence_order_cex :
    (assess_portfolio_risk [⟨"A", 100000, 100, none, none⟩]
        [fun _ => -10] [fun _ => 0]).map (fun r => (r.var_95, r.var_99)) =
      some (23920, 0) ∧ (0 : ℚ) < 23920 :=
  ⟨by with_unfolding_all rfl, by norm_num⟩

/-- C8 (amended): when the two confidence levels are evaluated against the
same simulated sample — the same sequence of random draws — the reported
99% Value-at-Risk is at least the 95% Value-at-Risk, because the 1% quantile
index never exceeds the 5% quantile index of the ascending-sorted simulated
values.  (Within one assessment the code redraws a fresh sample per
confidence level, so there the inequality holds only statistically.) -/
theorem var_monotone_in_confidence (p : List Holding) (draws : List (ℕ → ℚ))
    (hd : draws ≠ []) :
    ∃ v95 v99,
      calculate_var p draws (95/100) = some v95 ∧
      calculate_var p draws (99/100) = some v99 ∧ v95 ≤ v99 := by
  have hn : 0 < draws.length := List.length_pos.mpr hd
  rw [calculate_var_eq p draws (95/100), calculate_var_eq p draws (99/100)]
  set values := draws.map (fun z => totalInvestment p * (1 + simulatedDailyReturn p z)) with hv
  set sorted := List.insertionSort (fun a b : ℚ => a ≤ b) values with hs
  have hlen : sorted.length = draws.length := by
    rw [hs, List.length_insertionSort, hv, List.length_map]
  have hi95 : (pyTrunc ((1 - 95/100) * (draws.length : ℚ))).toNat < sorted.length := by
    rw [hlen]
    exact pyTrunc_index_lt _ _ hn (by norm_num)
  have hi99 : (pyTrunc ((1 - 99/100) * (draws.length : ℚ))).toNat < sorted.length := by
    rw [hlen]
    exact pyTrunc_index_lt _ _ hn (by norm_num)
  have hile : (pyTrunc ((1 - 99/100) * (draws.length : ℚ))).toNat ≤
      (pyTrunc ((1 - 95/100) * (draws.length : ℚ))).toNat := by
    have hq : (0 : ℚ) ≤ (draws.length : ℚ) := Nat.cast_nonneg _
    have h1 : ((1 : ℚ) - 99/100) * (draws.length : ℚ) ≤
        ((1 : ℚ) - 95/100) * (draws.length : ℚ) := by nlinarith
    have e99 : pyTrunc ((1 - 99/100) * (draws.length : ℚ)) =
        ⌊((1 : ℚ) - 99/100) * (draws.length : ℚ)⌋ := by
      unfold pyTrunc
      rw [if_pos (by positivity)]
    have e95 : pyTrunc ((1 - 95/100) * (draws.length : ℚ)) =
        ⌊((1 : ℚ) - 95/100) * (draws.length : ℚ)⌋ := by
      unfold pyTrunc
      rw [if_pos (by positivity)]
    rw [e99, e95]
    exact Int.toNat_le_toNat (Int.floor_le_floor h1)
  have hsorted : sorted.Sorted (fun a b : ℚ => a ≤ b) := by
    rw [hs]
    exact List.sorted_insertionSort _ values
  haveI : IsRefl ℚ (fun a b : ℚ => a ≤ b) := ⟨le_refl⟩
  have hrel : sorted.get ⟨_, hi99⟩ ≤ sorted.get ⟨_, hi95⟩ :=
    hsorted.rel_get_of_le (Fin.mk_le_mk.mpr hile)
  rw [List.getElem?_eq_getElem hi95, List.getElem?_eq_getElem hi99]
  simp only [Option.map_some']
  refine ⟨_, _, rfl, rfl, ?_⟩
  rw [List.get_eq_getElem, List.get_eq_getElem] at hrel
  exact max_le_max (le_refl 0) (by linarith)

theorem var_monotone_in_confidence_witness :
    ∃ v95 v99,
      calculate_var [⟨"A", 100000, 100, none, none⟩] [fun _ => 0] (95/100) = some v95 ∧
      calculate_var [⟨"A", 100000, 100, none, none⟩] [fun _ => 0] (99/100) = some v99 ∧
      v95 ≤ v99 :=
  var_monotone_in_confidence _ _ (List.cons_ne_nil _ _)

theorem mkScanResult_symbol (now : ℤ) (sym : String) (sd : StockData)
    (fm : FinancialMetrics) (dd : List DividendRow) :
    (mkScanResult now sym sd fm dd).symbol = sym := rfl

/-- Inversion for `scan_stocks` membership: every output row was built from
some scanned symbol whose data passed all the filters (sorting is a
permutation and the limit takes a prefix, so membership transfers). -/
theorem scan_results_mem (pipe : DataPipeline) (now : ℤ) (symbols : List String)
    (config : ScanConfiguration) (r : ScanResult)
    (hr : r ∈ scan_stocks pipe now symbols config) :
    ∃ sym ∈ symbols, ∃ sd, pipe.get_stock_data sym = some sd ∧
      passesFilters now sd (pipe.get_financial_metrics sym)
        (pipe.get_dividend_history sym) config.filters = some true ∧
      r = mkScanResult now sym sd (pipe.get_financial_metrics sym)
        (pipe.get_dividend_history sym) := by
  unfold scan_stocks at hr
  dsimp only at hr
  have hr2 : r ∈ List.insertionSort
      (fun a b => scanKeyLe (config.sort_order = "asc")
        (resultField a config.sort_by) (resultField b config.sort_by) = true)
      (symbols.filterMap (fun sym =>
        match pipe.get_stock_data sym with
        | none => none
        | some sd =>
          match passesFilters now sd (pipe.get_financial_metrics sym)
              (pipe.get_dividend_history sym) config.filters with
          | some true => some (mkScanResult now sym sd (pipe.get_financial_metrics sym)
              (pipe.get_dividend_history sym))
          | _ => none)) := by
    cases hl : config.limit with
    | none => rw [hl] at hr; exact hr
    | some n =>
      rw [hl] at hr
      dsimp only at hr
      split at hr
      · exact List.take_subset n _ hr
      · exact hr
  have hr3 := (List.perm_insertionSort _ _).subset hr2
  obtain ⟨sym, hsym, heq⟩ := List.mem_filterMap.mp hr3
  refine ⟨sym, hsym, ?_⟩
  cases hsd : pipe.get_stock_data sym with
  | none => rw [hsd] at heq; cases heq
  | some sd =>
    rw [hsd] at heq
    dsimp only at heq
    refine ⟨sd, rfl, ?_⟩
    cases hpf : passesFilters now sd (pipe.get_financial_metrics sym)
        (pipe.get_dividend_history sym) config.filters with
    | none => rw [hpf] at heq; cases heq
    | some b =>
      cases b with
      | false => rw [hpf] at heq; cases heq
      | true =>
        rw [hpf] at heq
        dsimp only at heq
        exact ⟨rfl, (Option.some_inj.mp heq).symm⟩

/-- C6: with a configuration whose filters all use valid operators and
criterion tags, every row of the scan output satisfies every filter — for
each filter the stock's actual value is present and the filter evaluates to
a pass (no false positives) — and a scanned stock missing a field required
by some filter is excluded: no output row carries its symbol. -/
theorem scan_output_satisfies_filters (pipe : DataPipeline) (now : ℤ)
    (symbols : List String) (config : ScanConfiguration) (r : ScanResult)
    (_hvalid : ∀ f ∈ config.filters,
      f.operator ∈ validOperators ∧ f.criteria ∈ validCriteria)
    (hr : r ∈ scan_stocks pipe now symbols config) :
    (∃ sd, pipe.get_stock_data r.symbol = some sd ∧
      ∀ f ∈ config.filters, ∃ v,
        getFilterValue now f.criteria sd (pipe.get_financial_metrics r.symbol)
          (pipe.get_dividend_history r.symbol) = some v ∧
        applyFilter (some v) f.value f.operator = some true) ∧
    (∀ s sd2, s ∈ symbols → pipe.get_stock_data s = some sd2 →
      (∃ f ∈ config.filters, getFilterValue now f.criteria sd2
          (pipe.get_financial_metrics s) (pipe.get_dividend_history s) = none) →
      r.symbol ≠ s) := by
  obtain ⟨sym, hsym, sd, hsd, hpf, rfl⟩ :=
    scan_results_mem pipe now symbols config r hr
  rw [mkScanResult_symbol]
  have hall := (passesFilters_eq_true_iff now sd (pipe.get_financial_metrics sym)
    (pipe.get_dividend_history sym) config.filters).mp hpf
  constructor
  · exact ⟨sd, hsd, hall⟩
  · intro s sd2 hs hsd2 hmiss heq
    cases heq
    rw [hsd] at hsd2
    cases Option.some_inj.mp hsd2
    obtain ⟨f, hf, hnone⟩ := hmiss
    obtain ⟨v, hv, _⟩ := hall f hf
    rw [hnone] at hv
    cases hv

/-- A one-stock pipeline for the C6 witness. -/
def c6pipe : DataPipeline where
  get_stock_data := fun s =>
    if s = "X" then some { dividend_yield := some (5/100) } else none
  get_financial_metrics := fun _ => {}
  get_dividend_history := fun _ => []

/-- A one-filter configuration for the C6 witness. -/
def c6config : ScanConfiguration :=
  ⟨"High Yield", [⟨"min_dividend_yield", .num (3/100), "gte"⟩],
   "dividend_yield", "desc", none⟩

theorem scan_output_satisfies_filters_witness :
    (∀ f ∈ c6config.filters,
      f.operator ∈ validOperators ∧ f.criteria ∈ validCriteria) ∧
    mkScanResult 0 "X" { dividend_yield := some (5/100) } {} [] ∈
      scan_stocks c6pipe 0 ["X"] c6config ∧
    (∃ sd, c6pipe.get_stock_data
        (mkScanResult 0 "X" { dividend_yield := some (5/100) } {} []).symbol = some sd ∧
      ∀ f ∈ c6config.filters, ∃ v,
        getFilterValue 0 f.criteria sd
          (c6pipe.get_financial_metrics
            (mkScanResult 0 "X" { dividend_yield := some (5/100) } {} []).symbol)
          (c6pipe.get_dividend_history
            (mkScanResult 0 "X" { dividend_yield := some (5/100) } {} []).symbol) = some v ∧
        applyFilter (some v) f.value f.operator = some true) := by
  have hmem : mkScanResult 0 "X" { dividend_yield := some (5/100) } {} [] ∈
      scan_stocks c6pipe 0 ["X"] c6config := by
    have hscan : scan_stocks c6pipe 0 ["X"] c6config =
        [mkScanResult 0 "X" { dividend_yield := some (5/100) } {} []] := by
      with_unfolding_all rfl
    rw [hscan]
    exact List.mem_cons_self _ _
  exact ⟨by decide, hmem,
    (scan_output_satisfies_filters c6pipe 0 ["X"] c6config _ (by decide) hmem).1⟩
